import Mathlib

/-!
Verification development for the ForgeBreaker repository.

The repository ships a React frontend (App.tsx with tab navigation, user id
handling, and an ExplanationBlock component) whose code is embedded below as a
state machine and a pure render function.  The Deck Completion and Assumption
Analysis Engine (computeDistance, rankDecks, extractAssumptions,
scoreFragility) is described by the specification but its implementation is not
part of the visible sources; those operations are modelled from the spec, as
marked in their doc comments.
-/

deriving instance DecidableEq for Except

namespace ForgeBreaker

/-- Modelled from the spec: role tag of a DeckEntry, one of
land/curve-filler, key-card, interaction-piece (spec section 3, DeckEntry). -/
inductive Role where
  | land
  | keyCard
  | interaction
deriving DecidableEq, Repr

/-- Modelled from the spec: a DeckEntry is a CardIdentity plus required
quantity plus role tag; the designated substitute field supports the key-card
concentration rule of section 4.3, and manaCost supports the curve rules.
The required quantity is an integer so that the `required ≤ 0` validity check
of section 4.1 is expressible. -/
structure DeckEntry where
  card : String
  rarity : String
  required : Int
  role : Role
  manaCost : Nat
  substitute : Option String
deriving DecidableEq, Repr

/-- Modelled from the spec: a Decklist is a sequence of DeckEntry plus
deck-level metadata; only the archetype name is needed by the ranker. -/
structure Decklist where
  name : String
  entries : List DeckEntry
deriving DecidableEq, Repr

/-- Modelled from the spec: an Inventory maps CardIdentity to owned quantity;
an absent key means quantity 0. -/
abbrev Inventory := List (String × Nat)

/-- Modelled from the spec: a RarityCost table maps rarity tier to wildcard
cost per missing copy; an absent rarity is a configuration defect. -/
abbrev RarityCost := List (String × Nat)

/-- Quantity owned of a card: the first binding in the inventory, with absent
key meaning quantity 0. -/
def lookupQty (inv : Inventory) (c : String) : Nat :=
  match List.find? (fun p => p.1 == c) inv with
  | some p => p.2
  | none => 0

/-- Wildcard cost of a rarity tier, when present in the table. -/
def lookupCost (rc : RarityCost) (rarity : String) : Option Nat :=
  (List.find? (fun p => p.1 == rarity) rc).map (fun p => p.2)

/-- Modelled from the spec: failure taxonomy of computeDistance
(section 7): InvalidDecklistError for malformed required quantities, and
UnknownRarityError naming the offending card for an incomplete cost table. -/
inductive DistanceError where
  | invalidDecklist
  | unknownRarity (card : String)
deriving DecidableEq, Repr

/-- Modelled from the spec: DistanceResult holds the total wildcard cost, the
owned and required weights, the completion percentage and the degenerate flag
(section 3, DistanceResult; section 4.1). -/
structure DistanceResult where
  totalCost : Nat
  ownedSum : Nat
  requiredSum : Nat
  completion : ℚ
  degenerate : Bool
deriving DecidableEq, Repr

/-- Owned copies for one entry: min(inventory[card], required). -/
def entryOwned (inv : Inventory) (e : DeckEntry) : Nat :=
  min (lookupQty inv e.card) e.required.toNat

/-- Cost contribution of one entry: missing times the rarity cost (0 stands in
for a missing rarity; computeDistance fails before this default is used). -/
def entryCostTerm (inv : Inventory) (rc : RarityCost) (e : DeckEntry) : Nat :=
  (e.required.toNat - entryOwned inv e) * (lookupCost rc e.rarity).getD 0

/-- Modelled from the spec: sums owned weight, required weight and wildcard
cost over the entries, failing with UnknownRarityError on the first entry
whose rarity is absent from the cost table. -/
def sumEntries (inv : Inventory) (rc : RarityCost) :
    List DeckEntry → Except DistanceError (Nat × Nat × Nat)
  | [] => Except.ok (0, 0, 0)
  | e :: es =>
    match lookupCost rc e.rarity with
    | none => Except.error (DistanceError.unknownRarity e.card)
    | some w =>
      match sumEntries inv rc es with
      | Except.error err => Except.error err
      | Except.ok (o, r, c) =>
        let req := e.required.toNat
        let owned := min (lookupQty inv e.card) req
        Except.ok (owned + o, req + r, (req - owned) * w + c)

/-- Modelled from the spec: computeDistance (section 4.1).  Fails with
InvalidDecklistError if any entry has required ≤ 0, with UnknownRarityError if
a rarity is absent from the cost table; otherwise owned = min(inventory[card],
required), missing = required − owned, cost contribution = missing ×
rarityCosts[card.rarity], total = sum over entries, completion = owned weight /
required weight, with the zero-required decklist defined as completion 1 and
flagged degenerate. -/
def computeDistance (inv : Inventory) (deck : Decklist) (rc : RarityCost) :
    Except DistanceError DistanceResult :=
  if deck.entries.any (fun e => decide (e.required ≤ 0)) then
    Except.error DistanceError.invalidDecklist
  else
    match sumEntries inv rc deck.entries with
    | Except.error err => Except.error err
    | Except.ok (o, r, c) =>
      if r = 0 then
        Except.ok ⟨c, o, r, 1, true⟩
      else
        Except.ok ⟨c, o, r, (o : ℚ) / (r : ℚ), false⟩

/-- Ranked output element: a decklist paired with its distance result. -/
abbrev Ranked := Decklist × DistanceResult

/-- Modelled from the spec: the ranking order of section 4.2 — ascending total
wildcard cost, tie-break 1 descending completion percentage, tie-break 2
lexicographic deck name. -/
def rankLE (a b : Ranked) : Prop :=
  a.2.totalCost < b.2.totalCost ∨
    (a.2.totalCost = b.2.totalCost ∧
      (b.2.completion < a.2.completion ∨
        (a.2.completion = b.2.completion ∧ a.1.name ≤ b.1.name)))

instance : DecidableRel rankLE := fun a b => by
  unfold rankLE
  infer_instance

/-- Modelled from the spec: distance results for a catalog, in catalog order,
propagating the first computeDistance failure. -/
def distancePairs (inv : Inventory) (rc : RarityCost) :
    List Decklist → Except DistanceError (List Ranked)
  | [] => Except.ok []
  | d :: ds =>
    match computeDistance inv d rc with
    | Except.error e => Except.error e
    | Except.ok res =>
      match distancePairs inv rc ds with
      | Except.error e => Except.error e
      | Except.ok rest => Except.ok ((d, res) :: rest)

/-- Modelled from the spec: rankDecks (section 4.2) — an independent distance
computation per deck followed by a single deterministic sort under rankLE. -/
def rankDecks (inv : Inventory) (decks : List Decklist) (rc : RarityCost) :
    Except DistanceError (List Ranked) :=
  match distancePairs inv rc decks with
  | Except.error e => Except.error e
  | Except.ok pairs => Except.ok (List.insertionSort rankLE pairs)

/-- Modelled from the spec: category tag of an Assumption, one per heuristic
rule of section 4.3. -/
inductive AssumptionCat where
  | curveFragility
  | singlePointOfFailure
  | lateInteraction
deriving DecidableEq, Repr

/-- Modelled from the spec: an Assumption is a category tag plus the
derivation source, the cards of the DeckEntry/entries that triggered it. -/
structure Assumption where
  category : AssumptionCat
  sourceCards : List String
deriving DecidableEq, Repr

/-- Modelled from the spec: the key-card quantity threshold of the
concentration rule, given in section 4.3 as all 4 copies. -/
def keyCardThreshold : Nat := 4

/-- Difference between two naturals, regardless of order. -/
def natDist (a b : Nat) : Nat := (a - b) + (b - a)

/-- Required weight of a cost bucket: sum of required quantities of the
nonland entries whose mana cost is the bucket. -/
def bucketDensity (deck : Decklist) (c : Nat) : Nat :=
  ((deck.entries.filter (fun e => !(e.role == Role.land) && e.manaCost == c)).map
    (fun e => e.required.toNat)).sum

/-- Modelled from the spec: reference healthy curve density per cost bucket
(section 4.3, curve-shape rule). -/
def healthyCurve : Nat → Nat
  | 1 => 8
  | 2 => 12
  | 3 => 10
  | 4 => 6
  | 5 => 4
  | 6 => 2
  | _ => 0

/-- Modelled from the spec: deviation beyond this threshold from the healthy
curve emits a curve-fragility Assumption. -/
def curveDeviationThreshold : Nat := 6

/-- Cost buckets the curve-shape rule inspects. -/
def curveBuckets : List Nat := [0, 1, 2, 3, 4, 5, 6, 7]

/-- Modelled from the spec: curve-shape rule — a cost bucket whose density
deviates beyond the threshold from the healthy curve yields a curve-fragility
Assumption citing the entries of that bucket. -/
def curveRule (deck : Decklist) : List Assumption :=
  (curveBuckets.filter
      (fun c => curveDeviationThreshold < natDist (bucketDensity deck c) (healthyCurve c))).map
    (fun c =>
      ⟨AssumptionCat.curveFragility,
        ((deck.entries.filter (fun e => !(e.role == Role.land) && e.manaCost == c)).map
          (fun e => e.card))⟩)

/-- Modelled from the spec: key-card concentration rule — a key-card entry
with required quantity at or above the threshold and no designated substitute
yields a single-point-of-failure Assumption citing that card. -/
def keyCardRule (deck : Decklist) : List Assumption :=
  (deck.entries.filter
      (fun e =>
        e.role == Role.keyCard &&
          decide ((keyCardThreshold : Int) ≤ e.required) && e.substitute.isNone)).map
    (fun e => ⟨AssumptionCat.singlePointOfFailure, [e.card]⟩)

/-- Modelled from the spec: interaction-timing rule — when the interaction
pieces average a higher mana cost than the deck as a whole (compared by cross
multiplication), emit one late-interaction dependency Assumption citing the
interaction entries. -/
def timingRule (deck : Decklist) : List Assumption :=
  let inter := deck.entries.filter (fun e => e.role == Role.interaction)
  let wInter := (inter.map (fun e => e.manaCost * e.required.toNat)).sum
  let nInter := (inter.map (fun e => e.required.toNat)).sum
  let wAll := (deck.entries.map (fun e => e.manaCost * e.required.toNat)).sum
  let nAll := (deck.entries.map (fun e => e.required.toNat)).sum
  if 0 < nInter && wAll * nInter < nAll * wInter then
    [⟨AssumptionCat.lateInteraction, inter.map (fun e => e.card)⟩]
  else []

/-- Modelled from the spec: extractAssumptions (section 4.3) — the heuristic
rules run independently and their outputs are concatenated in a fixed rule
order for display stability. -/
def extractAssumptions (deck : Decklist) : List Assumption :=
  curveRule deck ++ keyCardRule deck ++ timingRule deck

/-- Modelled from the spec: confidence qualifier of a FragilityScore
(section 4.4). -/
inductive Confidence where
  | high
  | low
deriving DecidableEq, Repr

/-- Modelled from the spec: a FragilityScore is a sensitivity value in a
bounded range plus a confidence qualifier. -/
structure FragilityScore where
  sensitivity : ℚ
  confidence : Confidence
deriving DecidableEq, Repr

/-- Modelled from the spec: size of the perturbation needed to flip the
truth condition of an assumption (section 4.4) — copies to remove for a
single point of failure, bucket shift for curve fragility, weight margin for
late interaction. -/
def perturbationNeeded (deck : Decklist) (a : Assumption) : Nat :=
  match a.category with
  | AssumptionCat.singlePointOfFailure =>
    match a.sourceCards with
    | c :: _ =>
      match deck.entries.find? (fun e => e.card == c) with
      | some e => e.required.toNat + 1 - keyCardThreshold
      | none => 1
    | [] => 1
  | AssumptionCat.curveFragility =>
    match a.sourceCards with
    | c :: _ =>
      match deck.entries.find? (fun e => e.card == c) with
      | some e =>
        natDist (bucketDensity deck e.manaCost) (healthyCurve e.manaCost) -
          curveDeviationThreshold
      | none => 1
    | [] => 1
  | AssumptionCat.lateInteraction =>
    let inter := deck.entries.filter (fun e => e.role == Role.interaction)
    let wInter := (inter.map (fun e => e.manaCost * e.required.toNat)).sum
    let nInter := (inter.map (fun e => e.required.toNat)).sum
    let wAll := (deck.entries.map (fun e => e.manaCost * e.required.toNat)).sum
    let nAll := (deck.entries.map (fun e => e.required.toNat)).sum
    nAll * wInter - wAll * nInter

/-- Modelled from the spec: confidence is high when the assumption derives
from exact counts (key-card quantity) and low when it derives from a heuristic
threshold comparison (curve shape, interaction timing). -/
def confidenceFor (a : Assumption) : Confidence :=
  match a.category with
  | AssumptionCat.singlePointOfFailure => Confidence.high
  | AssumptionCat.curveFragility => Confidence.low
  | AssumptionCat.lateInteraction => Confidence.low

/-- Modelled from the spec: scoreFragility (section 4.4) — deterministic
heuristic scoring; sensitivity is 1/perturbation, normalized to [0, 1], lower
perturbation needed means higher fragility.  The optional seed is a
forward-compatibility hook for the unimplemented simulation mode and is not
consulted by the exact heuristic scoring (section 9). -/
def scoreFragility (deck : Decklist) (assumptions : List Assumption)
    (seed : Option Nat) : List (Assumption × FragilityScore) :=
  match seed with
  | _ =>
    assumptions.map
      (fun a =>
        (a, ⟨1 / (max (perturbationNeeded deck a) 1 : ℚ), confidenceFor a⟩))

/-- Tab identifiers used by App.tsx: the chat, collection and meta tabs. -/
inductive TabId where
  | chat
  | collection
  | meta
deriving DecidableEq, Repr

/-- State of the App component in App.tsx: the userId, selectedDeck and
activeTab useState hooks, together with the browser localStorage binding for
the forgebreaker_user_id key (none when the key is absent).  A selected deck
is identified by its name string; the DeckResponse payload is opaque here. -/
structure AppState where
  userId : String
  selectedDeck : Option String
  activeTab : TabId
  storage : Option String
deriving DecidableEq, Repr

/-- Initial App state: userId is read from localStorage with the empty string
as fallback, selectedDeck starts null and activeTab starts at chat. -/
def initState (stored : Option String) : AppState :=
  { userId := stored.getD ""
    selectedDeck := none
    activeTab := TabId.chat
    storage := stored }

/-- Events the App component reacts to: handleTabChange from TabNav,
onSelectDeck from DeckBrowser, onClose from DeckDetail, onSetUserId from
LandingPage, and the Logout button. -/
inductive AppEvent where
  | tabChange (t : TabId)
  | selectDeck (d : String)
  | closeDeck
  | setUserId (u : String)
  | logout
deriving DecidableEq, Repr

/-- Transition function of the App component.  handleTabChange sets the
active tab and clears the deck selection when leaving the meta tab.  The
other handlers fire only from components App.tsx actually renders in the
given state: DeckBrowser only on the meta tab with no selection and a
nonempty userId, DeckDetail only on the meta tab with a selection, the
LandingPage only when userId is empty, and the Logout button only when
userId is nonempty; outside those states the event is a no-op. -/
def step (s : AppState) (e : AppEvent) : AppState :=
  match e with
  | AppEvent.tabChange t =>
    if t = TabId.meta then { s with activeTab := t }
    else { s with activeTab := t, selectedDeck := none }
  | AppEvent.selectDeck d =>
    if s.userId ≠ "" ∧ s.activeTab = TabId.meta ∧ s.selectedDeck = none then
      { s with selectedDeck := some d }
    else s
  | AppEvent.closeDeck =>
    if s.userId ≠ "" ∧ s.activeTab = TabId.meta ∧ s.selectedDeck ≠ none then
      { s with selectedDeck := none }
    else s
  | AppEvent.setUserId u =>
    if s.userId = "" then { s with userId := u, storage := some u }
    else s
  | AppEvent.logout =>
    if s.userId ≠ "" then { s with userId := "", storage := none }
    else s

/-- States the App component can reach from an initial load under any
sequence of events. -/
inductive Reachable : AppState → Prop where
  | base (stored : Option String) : Reachable (initState stored)
  | next (s : AppState) (e : AppEvent) : Reachable s → Reachable (step s e)

/-- Whether App.tsx renders the DeckDetail view in a state: the main block
requires a nonempty userId, the branch requires the meta tab, and DeckDetail
requires a selected deck. -/
def rendersDeckDetail (s : AppState) : Bool :=
  !(s.userId == "") && s.activeTab == TabId.meta && s.selectedDeck.isSome

/-- Props of the ExplanationBlock component: summary, optional conditional
clause, optional assumption list, and the compact flag (default false). -/
structure ExplanationProps where
  summary : String
  conditional : Option String
  assumptions : Option (List String)
  compact : Bool
deriving DecidableEq, Repr

/-- JavaScript truthiness of the optional conditional string: absent or empty
means falsy. -/
def condTruthy : Option String → Bool
  | some s => !(s == "")
  | none => false

/-- Truthiness of the assumptions guard in ExplanationBlock: the list is
present and nonempty. -/
def assumpPresent : Option (List String) → Bool
  | some l => decide (0 < l.length)
  | none => false

/-- hasDetails in ExplanationBlock: conditional is truthy or the assumption
list is present and nonempty. -/
def hasDetails (p : ExplanationProps) : Bool :=
  condTruthy p.conditional || assumpPresent p.assumptions

/-- Expanded details section of the non-compact ExplanationBlock view: the
Given clause renders only for a truthy conditional, the Depends-on chips only
for a nonempty assumption list. -/
structure RenderedDetails where
  given : Option String
  dependsOn : Option (List String)
deriving DecidableEq, Repr

/-- Render output of ExplanationBlock: the compact view shows only the
summary; the full view shows the summary, an expand toggle when details
exist, and the details section when expanded. -/
inductive RenderedBlock where
  | compactView (summary : String)
  | fullView (summary : String) (toggle : Option String) (details : Option RenderedDetails)
deriving DecidableEq, Repr

/-- Render function of ExplanationBlock as a function of its props and its
expanded local state, mirroring the JSX structure. -/
def renderExplanationBlock (p : ExplanationProps) (expanded : Bool) : RenderedBlock :=
  if p.compact then RenderedBlock.compactView p.summary
  else
    RenderedBlock.fullView p.summary
      (if hasDetails p then some (if expanded then "-" else "+") else none)
      (if expanded && hasDetails p then
        some
          ⟨if condTruthy p.conditional then p.conditional else none,
            if assumpPresent p.assumptions then p.assumptions else none⟩
      else none)

/-! Helper lemmas about the entry summation underlying computeDistance. -/

theorem sumEntries_ok_spec (inv : Inventory) (rc : RarityCost) :
    ∀ (l : List DeckEntry) (o r c : Nat), sumEntries inv rc l = Except.ok (o, r, c) →
      o = (l.map (entryOwned inv)).sum ∧
      r = (l.map (fun e => e.required.toNat)).sum ∧
      c = (l.map (entryCostTerm inv rc)).sum ∧
      ∀ e ∈ l, (lookupCost rc e.rarity).isSome := by
  intro l
  induction l with
  | nil =>
    intro o r c h
    simp only [sumEntries, Except.ok.injEq, Prod.mk.injEq] at h
    obtain ⟨ho, hr, hc⟩ := h
    simp [← ho, ← hr, ← hc]
  | cons e es ih =>
    intro o r c h
    simp only [sumEntries] at h
    cases hL : lookupCost rc e.rarity with
    | none => rw [hL] at h; simp at h
    | some w =>
      rw [hL] at h
      cases hRec : sumEntries inv rc es with
      | error err => rw [hRec] at h; simp at h
      | ok t =>
        obtain ⟨o', r', c'⟩ := t
        rw [hRec] at h
        simp only [Except.ok.injEq, Prod.mk.injEq] at h
        obtain ⟨ho, hr, hc⟩ := h
        obtain ⟨iho, ihr, ihc, ihl⟩ := ih o' r' c' hRec
        refine ⟨?_, ?_, ?_, ?_⟩
        · simp [← ho, iho, entryOwned]
        · simp [← hr, ihr]
        · simp [← hc, ihc, entryCostTerm, entryOwned, hL]
        · intro x hx
          rcases List.mem_cons.mp hx with hx | hx
          · subst hx; simp [hL]
          · exact ihl x hx

theorem computeDistance_ok_inv (inv : Inventory) (deck : Decklist) (rc : RarityCost)
    (res : DistanceResult) (h : computeDistance inv deck rc = Except.ok res) :
    res.totalCost = (deck.entries.map (entryCostTerm inv rc)).sum ∧
      res.ownedSum = (deck.entries.map (entryOwned inv)).sum ∧
      res.requiredSum = (deck.entries.map (fun e => e.required.toNat)).sum ∧
      (∀ e ∈ deck.entries, (lookupCost rc e.rarity).isSome) ∧
      (∀ e ∈ deck.entries, 0 < e.required) ∧
      ((res.requiredSum = 0 ∧ res.completion = 1 ∧ res.degenerate = true) ∨
        (res.requiredSum ≠ 0 ∧
          res.completion = (res.ownedSum : ℚ) / (res.requiredSum : ℚ) ∧
          res.degenerate = false)) := by
  unfold computeDistance at h
  split at h
  · simp at h
  · rename_i hval
    have hpos : ∀ e ∈ deck.entries, 0 < e.required := by
      intro e he
      by_contra hneg
      exact hval (List.any_eq_true.mpr ⟨e, he, by simpa using hneg⟩)
    split at h
    · simp at h
    · rename_i t o r c hSum
      obtain ⟨ho, hr, hc, hl⟩ := sumEntries_ok_spec inv rc deck.entries o r c hSum
      by_cases hz : r = 0
      · rw [if_pos hz] at h
        obtain rfl := (Except.ok.injEq _ _).mp h.symm
        exact ⟨hc, ho, hr, hl, hpos, Or.inl ⟨hz, rfl, rfl⟩⟩
      · rw [if_neg hz] at h
        obtain rfl := (Except.ok.injEq _ _).mp h.symm
        exact ⟨hc, ho, hr, hl, hpos, Or.inr ⟨hz, rfl, rfl⟩⟩

/-! Scenario data shared by the distance claims. -/

/-- Scenario inventory of the spec: CardA owned 2, CardB owned 0. -/
def scInv : Inventory := [("CardA", 2), ("CardB", 0)]

/-- Scenario cost table of the spec: common costs 1, rare costs 4. -/
def scRC : RarityCost := [("common", 1), ("rare", 4)]

/-- Scenario decklist of the spec: 4 CardA (common) and 2 CardB (rare). -/
def scDeck : Decklist :=
  ⟨"Scenario",
    [⟨"CardA", "common", 4, Role.land, 0, none⟩,
      ⟨"CardB", "rare", 2, Role.land, 0, none⟩]⟩

/-- Distance result the scenario computes to. -/
def scRes : DistanceResult := ⟨10, 2, 6, ((2 : ℕ) : ℚ) / ((6 : ℕ) : ℚ), false⟩

/-- C1: computeDistance takes owned = min(inventory[card], required) and
missing = required − owned per entry, charges missing × rarityCosts[rarity],
and returns the sum; on the spec scenario (inventory CardA 2, CardB 0; deck 4
common CardA and 2 rare CardB; costs 1 and 4) the total is 10 and the
completion percentage is (2+0)/(4+2). -/
theorem computeDistance_formula_and_scenario :
    (∀ (inv : Inventory) (deck : Decklist) (rc : RarityCost) (res : DistanceResult),
        computeDistance inv deck rc = Except.ok res →
          res.totalCost =
            (deck.entries.map (fun e =>
              (e.required.toNat - min (lookupQty inv e.card) e.required.toNat) *
                (lookupCost rc e.rarity).getD 0)).sum) ∧
      computeDistance scInv scDeck scRC = Except.ok scRes ∧
      scRes.totalCost = 10 ∧ scRes.completion = (2 + 0 : ℚ) / (4 + 2) := by
  refine ⟨?_, rfl, rfl, ?_⟩
  · intro inv deck rc res h
    have := (computeDistance_ok_inv inv deck rc res h).1
    simpa [entryCostTerm, entryOwned] using this
  · show ((2 : ℕ) : ℚ) / ((6 : ℕ) : ℚ) = (2 + 0 : ℚ) / (4 + 2)
    norm_num

/-- Witness for C1: the per-entry cost formula instantiated on the spec
scenario. -/
theorem computeDistance_formula_witness :
    scRes.totalCost =
      (scDeck.entries.map (fun e =>
        (e.required.toNat - min (lookupQty scInv e.card) e.required.toNat) *
          (lookupCost scRC e.rarity).getD 0)).sum :=
  computeDistance_formula_and_scenario.1 scInv scDeck scRC scRes rfl

theorem sumEntries_missing_rarity (inv : Inventory) (rc : RarityCost) :
    ∀ l : List DeckEntry, (∃ e ∈ l, lookupCost rc e.rarity = none) →
      ∃ e ∈ l, lookupCost rc e.rarity = none ∧
        sumEntries inv rc l = Except.error (DistanceError.unknownRarity e.card) := by
  intro l
  induction l with
  | nil => rintro ⟨e, he, _⟩; cases he
  | cons e es ih =>
    rintro ⟨x, hx, hxn⟩
    cases hL : lookupCost rc e.rarity with
    | none =>
      refine ⟨e, List.mem_cons_self e es, hL, ?_⟩
      simp [sumEntries, hL]
    | some w =>
      have hxes : x ∈ es := by
        rcases List.mem_cons.mp hx with rfl | h
        · rw [hL] at hxn; cases hxn
        · exact h
      obtain ⟨y, hy, hyn, hyerr⟩ := ih ⟨x, hxes, hxn⟩
      refine ⟨y, List.mem_cons_of_mem e hy, hyn, ?_⟩
      simp [sumEntries, hL, hyerr]

/-- C3: computeDistance fails with InvalidDecklistError when any entry has
required ≤ 0, and on a well-quantified decklist with a rarity absent from the
cost table it fails with UnknownRarityError naming an offending card of the
decklist — it never returns a result costing the card at 0. -/
theorem computeDistance_error_taxonomy :
    (∀ (inv : Inventory) (deck : Decklist) (rc : RarityCost),
        (∃ e ∈ deck.entries, e.required ≤ 0) →
        computeDistance inv deck rc = Except.error DistanceError.invalidDecklist) ∧
      (∀ (inv : Inventory) (deck : Decklist) (rc : RarityCost),
        (∀ e ∈ deck.entries, 0 < e.required) →
        (∃ e ∈ deck.entries, lookupCost rc e.rarity = none) →
        ∃ e ∈ deck.entries, lookupCost rc e.rarity = none ∧
          computeDistance inv deck rc =
            Except.error (DistanceError.unknownRarity e.card)) := by
  constructor
  · rintro inv deck rc ⟨e, he, hneg⟩
    unfold computeDistance
    rw [if_pos (List.any_eq_true.mpr ⟨e, he, by simpa using hneg⟩)]
  · intro inv deck rc hpos hmiss
    obtain ⟨e, he, hen, herr⟩ := sumEntries_missing_rarity inv rc deck.entries hmiss
    refine ⟨e, he, hen, ?_⟩
    unfold computeDistance
    rw [if_neg, herr]
    simp only [List.any_eq_true, not_exists]
    rintro x ⟨hx, hxneg⟩
    exact absurd (hpos x hx) (by simpa using hxneg)

/-- Scenario deck with an entry of required quantity 0, for the witness. -/
def badQtyDeck : Decklist :=
  ⟨"BadQty", [⟨"CardA", "common", 0, Role.land, 0, none⟩]⟩

/-- Scenario deck whose only entry has a rarity absent from scRC. -/
def badRarityDeck : Decklist :=
  ⟨"BadRarity", [⟨"CardX", "timeshifted", 4, Role.land, 0, none⟩]⟩

/-- Witness for C3: the two failure modes on concrete decklists. -/
theorem computeDistance_error_taxonomy_witness :
    computeDistance scInv badQtyDeck scRC =
        Except.error DistanceError.invalidDecklist ∧
      ∃ e ∈ badRarityDeck.entries, lookupCost scRC e.rarity = none ∧
        computeDistance scInv badRarityDeck scRC =
          Except.error (DistanceError.unknownRarity e.card) :=
  ⟨computeDistance_error_taxonomy.1 scInv badQtyDeck scRC
      ⟨⟨"CardA", "common", 0, Role.land, 0, none⟩, by decide, by decide⟩,
    computeDistance_error_taxonomy.2 scInv badRarityDeck scRC (by decide)
      ⟨⟨"CardX", "timeshifted", 4, Role.land, 0, none⟩, by decide, by decide⟩⟩

theorem lookupCost_pos (rc : RarityCost) (hpos : ∀ p ∈ rc, 0 < p.2)
    {rar : String} {w : Nat} (h : lookupCost rc rar = some w) : 0 < w := by
  unfold lookupCost at h
  obtain ⟨p, hfind, hw⟩ := Option.map_eq_some'.mp h
  exact hw ▸ hpos p (List.mem_of_find?_eq_some hfind)

/-- C4: when the rarity table carries positive wildcard costs, the total cost
computed for a valid decklist is nonnegative and is zero exactly when every
required card is fully owned. -/
theorem computeDistance_zero_iff_complete :
    ∀ (inv : Inventory) (deck : Decklist) (rc : RarityCost) (res : DistanceResult),
      (∀ p ∈ rc, 0 < p.2) →
      computeDistance inv deck rc = Except.ok res →
      0 ≤ res.totalCost ∧
        (res.totalCost = 0 ↔
          ∀ e ∈ deck.entries, e.required ≤ (lookupQty inv e.card : Int)) := by
  intro inv deck rc res hpos h
  obtain ⟨hc, _, _, hl, hq, _⟩ := computeDistance_ok_inv inv deck rc res h
  refine ⟨Nat.zero_le _, ?_⟩
  rw [hc, List.sum_eq_zero_iff]
  constructor
  · intro hall e he
    have := hall _ (List.mem_map_of_mem (entryCostTerm inv rc) he)
    obtain ⟨w, hw⟩ := Option.isSome_iff_exists.mp (hl e he)
    have hwpos := lookupCost_pos rc hpos hw
    rw [entryCostTerm, entryOwned, hw] at this
    simp only [Option.getD_some, Nat.mul_eq_zero] at this
    have hq' := hq e he
    omega
  · intro hall x hx
    obtain ⟨e, he, rfl⟩ := List.mem_map.mp hx
    have := hall e he
    rw [entryCostTerm, entryOwned]
    have hq' := hq e he
    have : e.required.toNat ≤ lookupQty inv e.card := by omega
    simp [Nat.sub_eq_zero_of_le, le_min (le_refl _) ] at *
    omega

/-- Witness for C4: the zero-iff-complete equivalence on the spec scenario. -/
theorem computeDistance_zero_iff_complete_witness :
    0 ≤ scRes.totalCost ∧
      (scRes.totalCost = 0 ↔
        ∀ e ∈ scDeck.entries, e.required ≤ (lookupQty scInv e.card : Int)) :=
  computeDistance_zero_iff_complete scInv scDeck scRC scRes (by decide) rfl

/-- C5: the completion percentage of every successful computeDistance result
lies in [0, 1], a successful result with zero required weight carries
completion exactly 1 and the degenerate flag, and a decklist of well-formed
entries whose total required quantity is zero is accepted — computeDistance
returns the flagged degenerate result with completion 1 instead of an
error. -/
theorem computeDistance_completion_bounds :
    (∀ (inv : Inventory) (deck : Decklist) (rc : RarityCost) (res : DistanceResult),
        computeDistance inv deck rc = Except.ok res →
        0 ≤ res.completion ∧ res.completion ≤ 1 ∧
          (res.requiredSum = 0 → res.completion = 1 ∧ res.degenerate = true)) ∧
      (∀ (inv : Inventory) (rc : RarityCost) (deck : Decklist),
        (deck.entries.map (fun e => e.required.toNat)).sum = 0 →
        (∀ e ∈ deck.entries, 0 < e.required) →
        computeDistance inv deck rc = Except.ok ⟨0, 0, 0, 1, true⟩) := by
  constructor
  · intro inv deck rc res h
    obtain ⟨_, ho, hr, _, _, hcase⟩ := computeDistance_ok_inv inv deck rc res h
    rcases hcase with ⟨hz, hone, hdeg⟩ | ⟨hz, hdiv, _⟩
    · rw [hone]
      exact ⟨by norm_num, by norm_num, fun _ => ⟨rfl, hdeg⟩⟩
    · have hle : res.ownedSum ≤ res.requiredSum := by
        rw [ho, hr]
        exact List.sum_le_sum fun e _ => min_le_right _ _
      have hrpos : (0 : ℚ) < (res.requiredSum : ℚ) :=
        Nat.cast_pos.mpr (Nat.pos_of_ne_zero hz)
      refine ⟨?_, ?_, fun hzero => absurd hzero hz⟩
      · rw [hdiv]
        exact div_nonneg (Nat.cast_nonneg _) (Nat.cast_nonneg _)
      · rw [hdiv]
        exact (div_le_one hrpos).mpr (Nat.cast_le.mpr hle)
  · intro inv rc deck hsum hpos
    have hnil : deck.entries = [] := by
      cases hE : deck.entries with
      | nil => rfl
      | cons e es =>
        have h1 : 0 < e.required := hpos e (hE ▸ List.mem_cons_self e es)
        rw [hE] at hsum
        simp only [List.map_cons, List.sum_cons] at hsum
        omega
    obtain ⟨nm, entries⟩ := deck
    simp only at hnil
    subst hnil
    rfl

/-- Zero-requirement decklist for the degenerate case of the C5 witness. -/
def emptyDeck : Decklist := ⟨"Empty", []⟩

/-- Flagged degenerate result the zero-requirement decklist computes to. -/
def degRes : DistanceResult := ⟨0, 0, 0, 1, true⟩

/-- Witness for C5: the completion bounds on the spec scenario, plus the
zero-requirement decklist being accepted as the flagged degenerate result,
on which the degenerate conjunct of the bounds fires. -/
theorem computeDistance_completion_bounds_witness :
    (0 ≤ scRes.completion ∧ scRes.completion ≤ 1 ∧
        (scRes.requiredSum = 0 → scRes.completion = 1 ∧ scRes.degenerate = true)) ∧
      computeDistance scInv emptyDeck scRC = Except.ok degRes ∧
      (0 ≤ degRes.completion ∧ degRes.completion ≤ 1 ∧
        (degRes.requiredSum = 0 → degRes.completion = 1 ∧ degRes.degenerate = true)) :=
  ⟨computeDistance_completion_bounds.1 scInv scDeck scRC scRes rfl,
    computeDistance_completion_bounds.2 scInv scRC emptyDeck rfl
      (fun e he => absurd he (List.not_mem_nil e)),
    computeDistance_completion_bounds.1 scInv emptyDeck scRC degRes rfl⟩

instance : IsTotal Ranked rankLE :=
  ⟨by
    intro a b
    rcases Nat.lt_trichotomy a.2.totalCost b.2.totalCost with h | h | h
    · exact Or.inl (Or.inl h)
    · rcases lt_trichotomy a.2.completion b.2.completion with h2 | h2 | h2
      · exact Or.inr (Or.inr ⟨h.symm, Or.inl h2⟩)
      · rcases le_total a.1.name b.1.name with h3 | h3
        · exact Or.inl (Or.inr ⟨h, Or.inr ⟨h2, h3⟩⟩)
        · exact Or.inr (Or.inr ⟨h.symm, Or.inr ⟨h2.symm, h3⟩⟩)
      · exact Or.inl (Or.inr ⟨h, Or.inl h2⟩)
    · exact Or.inr (Or.inl h)⟩

instance : IsTrans Ranked rankLE :=
  ⟨by
    intro a b c hab hbc
    rcases hab with h1 | ⟨e1, hab⟩
    · rcases hbc with h2 | ⟨e2, _⟩
      · exact Or.inl (lt_trans h1 h2)
      · exact Or.inl (e2 ▸ h1)
    · rcases hbc with h2 | ⟨e2, hbc⟩
      · exact Or.inl (e1 ▸ h2)
      · refine Or.inr ⟨e1.trans e2, ?_⟩
        rcases hab with h3 | ⟨f1, hab⟩
        · rcases hbc with h4 | ⟨f2, _⟩
          · exact Or.inl (lt_trans h4 h3)
          · exact Or.inl (f2 ▸ h3)
        · rcases hbc with h4 | ⟨f2, hbc⟩
          · exact Or.inl (by rw [f1]; exact h4)
          · exact Or.inr ⟨f1.trans f2, le_trans hab hbc⟩⟩

/-! Scenario data for the ranking claim: three decks with wildcard costs
10, 10, 5 and completions 0.5, 0.6, 0.9 against one inventory. -/

/-- Scenario inventory for the ranking claim. -/
def rkInv : Inventory := [("CardA", 2), ("CardB", 3), ("CardC", 9)]

/-- Scenario cost table for the ranking claim: a single rarity costing 5. -/
def rkRC : RarityCost := [("r", 5)]

/-- Scenario deck with cost 10 and completion 0.5. -/
def deckAlpha : Decklist := ⟨"Alpha", [⟨"CardA", "r", 4, Role.land, 0, none⟩]⟩

/-- Scenario deck with cost 10 and completion 0.6. -/
def deckBeta : Decklist := ⟨"Beta", [⟨"CardB", "r", 5, Role.land, 0, none⟩]⟩

/-- Scenario deck with cost 5 and completion 0.9. -/
def deckGamma : Decklist := ⟨"Gamma", [⟨"CardC", "r", 10, Role.land, 0, none⟩]⟩

/-- Distance result deckAlpha computes to. -/
def resAlpha : DistanceResult := ⟨10, 2, 4, ((2 : ℕ) : ℚ) / ((4 : ℕ) : ℚ), false⟩

/-- Distance result deckBeta computes to. -/
def resBeta : DistanceResult := ⟨10, 3, 5, ((3 : ℕ) : ℚ) / ((5 : ℕ) : ℚ), false⟩

/-- Distance result deckGamma computes to. -/
def resGamma : DistanceResult := ⟨5, 9, 10, ((9 : ℕ) : ℚ) / ((10 : ℕ) : ℚ), false⟩

/-- C2: rankDecks emits the computed pairs sorted under rankLE (ascending
cost, then descending completion, then name), its output is a permutation of
the per-deck results and is a deterministic function of its inputs, and the
three-deck scenario with costs [10, 10, 5] and completions [0.5, 0.6, 0.9]
comes out as [cost-5 deck, cost-10 completion-0.6 deck, cost-10
completion-0.5 deck]. -/
theorem rankDecks_order_and_scenario :
    (∀ (inv : Inventory) (decks : List Decklist) (rc : RarityCost) (out : List Ranked),
        rankDecks inv decks rc = Except.ok out → List.Pairwise rankLE out) ∧
      (∀ (inv : Inventory) (decks : List Decklist) (rc : RarityCost) (out : List Ranked),
        rankDecks inv decks rc = Except.ok out →
          ∃ pairs, distancePairs inv rc decks = Except.ok pairs ∧ out.Perm pairs) ∧
      (∀ (i1 i2 : Inventory) (d1 d2 : List Decklist) (r1 r2 : RarityCost),
        i1 = i2 → d1 = d2 → r1 = r2 → rankDecks i1 d1 r1 = rankDecks i2 d2 r2) ∧
      rankDecks rkInv [deckAlpha, deckBeta, deckGamma] rkRC =
        Except.ok [(deckGamma, resGamma), (deckBeta, resBeta), (deckAlpha, resAlpha)] ∧
      resGamma.totalCost = 5 ∧ resBeta.totalCost = 10 ∧ resAlpha.totalCost = 10 ∧
      resGamma.completion = 9 / 10 ∧ resBeta.completion = 3 / 5 ∧
      resAlpha.completion = 1 / 2 := by
  have hsorted : ∀ (inv : Inventory) (decks : List Decklist) (rc : RarityCost)
      (out : List Ranked), rankDecks inv decks rc = Except.ok out →
        List.Pairwise rankLE out := by
    intro inv decks rc out h
    unfold rankDecks at h
    split at h
    · simp at h
    · rename_i pairs hp
      obtain rfl := (Except.ok.injEq _ _).mp h
      exact List.sorted_insertionSort rankLE pairs
  have hperm : ∀ (inv : Inventory) (decks : List Decklist) (rc : RarityCost)
      (out : List Ranked), rankDecks inv decks rc = Except.ok out →
        ∃ pairs, distancePairs inv rc decks = Except.ok pairs ∧ out.Perm pairs := by
    intro inv decks rc out h
    unfold rankDecks at h
    split at h
    · simp at h
    · rename_i pairs hp
      obtain rfl := (Except.ok.injEq _ _).mp h
      exact ⟨pairs, hp, List.perm_insertionSort rankLE pairs⟩
  refine ⟨hsorted, hperm, ?_, ?_, rfl, rfl, rfl, by norm_num [resGamma],
    by norm_num [resBeta], by norm_num [resAlpha]⟩
  · rintro i1 _ d1 _ r1 _ rfl rfl rfl
    rfl
  · have hp : distancePairs rkInv rkRC [deckAlpha, deckBeta, deckGamma] =
        Except.ok [(deckAlpha, resAlpha), (deckBeta, resBeta), (deckGamma, resGamma)] := rfl
    have hba : ¬ rankLE (deckBeta, resBeta) (deckGamma, resGamma) := by
      norm_num [rankLE, resBeta, resGamma, deckBeta, deckGamma]
    have hag : ¬ rankLE (deckAlpha, resAlpha) (deckGamma, resGamma) := by
      norm_num [rankLE, resAlpha, resGamma, deckAlpha, deckGamma]
    have hab : ¬ rankLE (deckAlpha, resAlpha) (deckBeta, resBeta) := by
      norm_num [rankLE, resAlpha, resBeta, deckAlpha, deckBeta]
    unfold rankDecks
    rw [hp]
    simp [List.insertionSort, List.orderedInsert, hba, hag, hab]

/-- Witness for C2: sortedness and the permutation property instantiated on
the three-deck scenario. -/
theorem rankDecks_order_witness :
    List.Pairwise rankLE [(deckGamma, resGamma), (deckBeta, resBeta), (deckAlpha, resAlpha)] ∧
      ∃ pairs, distancePairs rkInv rkRC [deckAlpha, deckBeta, deckGamma] = Except.ok pairs ∧
        List.Perm [(deckGamma, resGamma), (deckBeta, resBeta), (deckAlpha, resAlpha)] pairs :=
  ⟨rankDecks_order_and_scenario.1 rkInv [deckAlpha, deckBeta, deckGamma] rkRC _
      rankDecks_order_and_scenario.2.2.2.1,
    rankDecks_order_and_scenario.2.1 rkInv [deckAlpha, deckBeta, deckGamma] rkRC _
      rankDecks_order_and_scenario.2.2.2.1⟩

/-- Scenario deck for the key-card claim: 4 copies of a single key-card with
no designated substitute, plus a land entry that triggers no rule. -/
def spofDeck : Decklist :=
  ⟨"Key",
    [⟨"KeyCard", "mythic", 4, Role.keyCard, 3, none⟩,
      ⟨"Plains", "common", 20, Role.land, 0, none⟩]⟩

/-- C6: every key-card entry with required quantity at or above the threshold
and no designated substitute yields a single-point-of-failure Assumption
citing that card, and the scenario deck with one such key-card yields exactly
one single-point-of-failure Assumption, citing it. -/
theorem extractAssumptions_keycard :
    (∀ (deck : Decklist) (e : DeckEntry), e ∈ deck.entries → e.role = Role.keyCard →
        (keyCardThreshold : Int) ≤ e.required → e.substitute = none →
        (⟨AssumptionCat.singlePointOfFailure, [e.card]⟩ : Assumption) ∈
          extractAssumptions deck) ∧
      (extractAssumptions spofDeck).filter
          (fun a => a.category == AssumptionCat.singlePointOfFailure) =
        [⟨AssumptionCat.singlePointOfFailure, ["KeyCard"]⟩] := by
  constructor
  · intro deck e he hrole hq hsub
    have hmem : (⟨AssumptionCat.singlePointOfFailure, [e.card]⟩ : Assumption) ∈
        keyCardRule deck := by
      unfold keyCardRule
      refine List.mem_map.mpr ⟨e, List.mem_filter.mpr ⟨he, ?_⟩, rfl⟩
      simp [hrole, hq, hsub]
    unfold extractAssumptions
    exact List.mem_append.mpr (Or.inl (List.mem_append.mpr (Or.inr hmem)))
  · decide

/-- Witness for C6: the membership fact instantiated on the scenario deck. -/
theorem extractAssumptions_keycard_witness :
    (⟨AssumptionCat.singlePointOfFailure, ["KeyCard"]⟩ : Assumption) ∈
      extractAssumptions spofDeck :=
  extractAssumptions_keycard.1 spofDeck ⟨"KeyCard", "mythic", 4, Role.keyCard, 3, none⟩
    (by decide) rfl (by decide) rfl

/-- C7: scoreFragility called without a seed is a deterministic function of
the decklist and assumption list alone — two calls on identical inputs yield
identical score mappings. -/
theorem scoreFragility_deterministic :
    ∀ (d1 d2 : Decklist) (a1 a2 : List Assumption),
      d1 = d2 → a1 = a2 →
      scoreFragility d1 a1 none = scoreFragility d2 a2 none := by
  intro d1 d2 a1 a2 h1 h2
  rw [h1, h2]

/-- Witness for C7: determinism instantiated on the key-card scenario deck
and its extracted assumptions. -/
theorem scoreFragility_deterministic_witness :
    scoreFragility spofDeck (extractAssumptions spofDeck) none =
      scoreFragility spofDeck (extractAssumptions spofDeck) none :=
  scoreFragility_deterministic spofDeck spofDeck (extractAssumptions spofDeck)
    (extractAssumptions spofDeck) rfl rfl

theorem reachable_deck_implies_meta :
    ∀ s, Reachable s → s.selectedDeck ≠ none → s.activeTab = TabId.meta := by
  intro s hr
  induction hr with
  | base stored => simp [initState]
  | next s e hr ih =>
    cases e with
    | tabChange t =>
      by_cases ht : t = TabId.meta
      · intro _
        simp [step, ht]
      · intro hd
        exact absurd (by simp [step, ht]) hd
    | selectDeck d =>
      simp only [step]
      split_ifs with hg
      · intro _
        exact hg.2.1
      · exact ih
    | closeDeck =>
      simp only [step]
      split_ifs with hg
      · intro hd
        exact absurd rfl hd
      · exact ih
    | setUserId u =>
      simp only [step]
      split_ifs with hg
      · exact ih
      · exact ih
    | logout =>
      simp only [step]
      split_ifs with hg
      · exact ih
      · exact ih

/-- C8: in every state the App component can reach from its initial load,
a non-null selectedDeck implies the meta tab is active; handleTabChange to a
tab other than meta always clears the selection, and the DeckDetail view is
only ever rendered on the meta tab. -/
theorem app_deck_selection_invariant :
    (∀ s, Reachable s → s.selectedDeck ≠ none → s.activeTab = TabId.meta) ∧
      (∀ (s : AppState) (t : TabId), t ≠ TabId.meta →
        (step s (AppEvent.tabChange t)).selectedDeck = none) ∧
      (∀ s, Reachable s → rendersDeckDetail s = true → s.activeTab = TabId.meta) := by
  refine ⟨reachable_deck_implies_meta, ?_, ?_⟩
  · intro s t ht
    simp [step, ht]
  · intro s hr hd
    simp only [rendersDeckDetail, Bool.and_eq_true, beq_iff_eq] at hd
    exact hd.1.2

/-- Reachable state with a selected deck, for the C8 witness: log in, switch
to the meta tab, select a deck. -/
def deckSelectedState : AppState :=
  step (step (step (initState none) (AppEvent.setUserId "user"))
    (AppEvent.tabChange TabId.meta)) (AppEvent.selectDeck "Izzet Phoenix")

/-- Witness for C8: the invariant applied to a concrete reachable state with
a selected deck. -/
theorem app_deck_selection_invariant_witness :
    deckSelectedState.activeTab = TabId.meta ∧
      (step deckSelectedState (AppEvent.tabChange TabId.chat)).selectedDeck = none :=
  ⟨app_deck_selection_invariant.1 deckSelectedState
      (Reachable.next _ _ (Reachable.next _ _ (Reachable.next _ _ (Reachable.base none))))
      (by decide),
    app_deck_selection_invariant.2.1 deckSelectedState TabId.chat (by decide)⟩

/-- C9: in compact mode, ExplanationBlock renders only the summary: two prop
records with compact set that agree on the summary render identically no
matter how their conditional and assumptions differ, and the output never
contains the conditional clause, assumption list, or details section. -/
theorem explanationBlock_compact_noninterference :
    (∀ (p1 p2 : ExplanationProps) (e1 e2 : Bool),
        p1.compact = true → p2.compact = true → p1.summary = p2.summary →
        renderExplanationBlock p1 e1 = renderExplanationBlock p2 e2) ∧
      (∀ (p : ExplanationProps) (e : Bool), p.compact = true →
        renderExplanationBlock p e = RenderedBlock.compactView p.summary) := by
  constructor
  · intro p1 p2 e1 e2 h1 h2 hs
    simp [renderExplanationBlock, h1, h2, hs]
  · intro p e h
    simp [renderExplanationBlock, h]

/-- Witness for C9: two compact prop records agreeing on the summary but
differing in conditional, assumptions and expanded state render identically. -/
theorem explanationBlock_compact_noninterference_witness :
    renderExplanationBlock ⟨"cost is 10", none, none, true⟩ false =
      renderExplanationBlock ⟨"cost is 10", some "meta shifts", some ["curve", "keycard"], true⟩
        true :=
  explanationBlock_compact_noninterference.1
    ⟨"cost is 10", none, none, true⟩
    ⟨"cost is 10", some "meta shifts", some ["curve", "keycard"], true⟩
    false true rfl rfl rfl

/-- C10: every reachable App state keeps the userId state synchronized with
the forgebreaker_user_id localStorage key — the stored value (empty for an
absent key) always equals the userId state. -/
theorem app_userId_storage_sync :
    ∀ s, Reachable s → s.storage.getD "" = s.userId := by
  intro s hr
  induction hr with
  | base stored => rfl
  | next s e hr ih =>
    cases e with
    | tabChange t =>
      by_cases ht : t = TabId.meta <;> simp [step, ht, ih]
    | selectDeck d =>
      simp only [step]
      split_ifs <;> exact ih
    | closeDeck =>
      simp only [step]
      split_ifs <;> exact ih
    | setUserId u =>
      simp only [step]
      split_ifs with hg
      · rfl
      · exact ih
    | logout =>
      simp only [step]
      split_ifs with hg
      · rfl
      · exact ih

/-- Witness for C10: the synchronization invariant on a concrete reachable
state after a login followed by a logout. -/
theorem app_userId_storage_sync_witness :
    ((step (step (initState none) (AppEvent.setUserId "user")) AppEvent.logout).storage.getD ""
      = (step (step (initState none) (AppEvent.setUserId "user")) AppEvent.logout).userId) :=
  app_userId_storage_sync _
    (Reachable.next _ _ (Reachable.next _ _ (Reachable.base none)))

end ForgeBreaker
